import Mathlib

/-!
# Manifest generator: descriptors and manifest assembly

A shallow embedding of `pkg/manifest/descriptor.go` and `pkg/manifest/manifest.go`.

* Go slices are lists, Go `string`s are `String`s, `[]byte` is `List Byte`.
* A Go `error` result is an `Option GoError` (`none` is `nil`).
* An `io.Reader` is the script of results its successive `Read` calls return.
* A `PushLayer` handle is the list of layer nodes reached by following `Parent()`;
  the empty list is the `nil` handle.
-/

set_option autoImplicit false

namespace ManifestGen

/-! ## Data model -/

/-- One byte of content. -/
abbrev Byte := Fin 256

/-- Go `error` values that the package creates or inspects. `eof` is the sentinel `io.EOF`,
`other msg` is any other error value (`errors.New`, `fmt.Errorf`), and `doNotRetry e` is
`xfer.DoNotRetry{Err: e}`. -/
inductive GoError where
  | eof
  | other (msg : String)
  | doNotRetry (err : GoError)
  deriving DecidableEq, Repr

/-- An error is fatal for a retry policy exactly when it is wrapped in `xfer.DoNotRetry`. -/
def GoError.isFatal : GoError → Bool
  | .doNotRetry _ => true
  | _ => false

/-- The type `distribution.Descriptor`, restricted to the fields the package sets. -/
structure Descriptor where
  MediaType : String
  Size : Int
  Digest : String
  deriving DecidableEq, Repr

/-- The zero value `distribution.Descriptor{}`. -/
def Descriptor.empty : Descriptor := ⟨"", 0, ""⟩

/-- Constant `schema2.MediaTypeUncompressedLayer`. -/
def MediaTypeUncompressedLayer : String := "application/vnd.docker.image.rootfs.diff.tar"

/-- Constant `schema2.MediaTypeLayer`. -/
def MediaTypeLayer : String := "application/vnd.docker.image.rootfs.diff.tar.gzip"

/-- Constant `schema2.MediaTypeImageConfig`. -/
def MediaTypeImageConfig : String := "application/vnd.docker.container.image.v1+json"

/-- Constant `schema2.MediaTypeManifest`. -/
def MediaTypeManifest : String := "application/vnd.docker.distribution.manifest.v2+json"

/-! ## `getCanonicalLayer` -/

/-- The function `getCanonicalLayer`: starting from the empty slice, for `i = 0 .. len(d)-1`
append `d[len(d)-1-i]`. The index is always in range, so the lookup never fails. -/
def getCanonicalLayer (d : List Descriptor) : List Descriptor :=
  (List.range d.length).foldl
    (fun canonicalLayers i => canonicalLayers ++ (d[d.length - 1 - i]?).toList) []

/-! ## `parseGUN` -/

/-- Library function `strings.Split(s, sep)` for a one-character separator, on the characters
of `s`: the pieces between consecutive separators (always at least one piece). -/
def stringsSplit (sep : Char) : List Char → List (List Char)
  | [] => [[]]
  | c :: cs =>
    if c = sep then [] :: stringsSplit sep cs
    else
      match stringsSplit sep cs with
      | [] => [[c]]
      | p :: ps => (c :: p) :: ps

/-- The function `parseGUN`, returning `(repo, tag, err)`. -/
def parseGUN (imgGUN : String) : String × String × Option GoError :=
  match (stringsSplit ':' imgGUN.data).map String.mk with
  | [repo, tag] => (repo, tag, none)
  | [repo] => (repo, "latest", none)
  | [p0, p1, tag] => (p0 ++ ":" ++ p1, tag, none)
  | _ => ("", "", some (.other ("无法解析 GUN: " ++ imgGUN)))

/-! ## Readers and `getIOreaderSize` -/

/-- What one call `Read(buf)` returns: the bytes placed in `buf` (the count `n` is their
number) and the error value. -/
structure ReadResult where
  data : List Byte
  err : Option GoError
  deriving DecidableEq, Repr

/-- An `io.Reader`: `script` lists the results of the `Read` calls still to come, and `sink`
collects every byte handed out so far, which is what an `io.TeeReader` around the reader has
written to its writer. -/
structure Reader where
  script : List ReadResult
  sink : List Byte
  deriving DecidableEq, Repr

/-- One `Read` call. A reader whose script is used up reports `(0, io.EOF)`. -/
def Reader.Read (r : Reader) : ReadResult × Reader :=
  match r.script with
  | [] => (⟨[], some .eof⟩, r)
  | x :: rest => (x, ⟨rest, r.sink ++ x.data⟩)

/-- Two's-complement wrap-around of `int64` arithmetic. -/
def wrapInt64 (x : Int) : Int := (x + 2 ^ 63) % 2 ^ 64 - 2 ^ 63

/-- The type `SizeCountingReader`. -/
structure SizeCountingReader where
  Reader : Reader
  Total : Int
  deriving DecidableEq, Repr

/-- The method `(*SizeCountingReader).Read`: forward the call, add the count to `Total`. -/
def SizeCountingReader.Read (scr : SizeCountingReader) :
    (Int × Option GoError) × SizeCountingReader :=
  let r := scr.Reader.Read
  let nn : Int := r.1.data.length
  ((nn, r.1.err), ⟨r.2, wrapInt64 (scr.Total + nn)⟩)

/-- The `for` loop of `getIOreaderSize`, on the reader state `(script, sink)` and the running
`Total`. Each iteration calls `reader.Read(buf)`; the recursion continues on the rest of the
script, which is the script of the reader after that call. -/
def getIOreaderSizeLoop :
    List ReadResult → List Byte → Int → (Int × Option GoError) × SizeCountingReader
  | [], sink, total =>
    -- the call returns `(0, io.EOF)`: `n == 0`, so `break`
    let r := SizeCountingReader.Read ⟨⟨[], sink⟩, total⟩
    ((r.2.Total, none), r.2)
  | x :: rest, sink, total =>
    let r := SizeCountingReader.Read ⟨⟨x :: rest, sink⟩, total⟩
    if r.1.1 = 0 then ((r.2.Total, none), r.2)
    else if r.1.2 ≠ none ∧ r.1.2 ≠ some .eof then ((0, r.1.2), r.2)
    else getIOreaderSizeLoop rest r.2.Reader.sink r.2.Total

/-- The function `getIOreaderSize`. Besides the returned pair `(int64, error)` the model gives
the final state of the counting reader, which shows what was consumed. -/
def getIOreaderSize (rd : Reader) : (Int × Option GoError) × SizeCountingReader :=
  getIOreaderSizeLoop rd.script rd.sink 0

/-- The bytes of a stream: the concatenation of what its reads deliver. -/
def streamBytes (script : List ReadResult) : List Byte := script.flatMap (fun r => r.data)

/-! ## `compress` -/

/-- Cut `b` into consecutive pieces of `size` bytes (the last one may be shorter). -/
def chunks (size : Nat) : Nat → List Byte → List (List Byte)
  | 0, _ => []
  | fuel + 1, b => if b = [] then [] else b.take size :: chunks size fuel (b.drop size)

/-- Library function `io.Copy(dst, src)` seen from the source: the bytes written to `dst` and
the error returned (`io.EOF` ends the copy without error). -/
def ioCopy : List ReadResult → List Byte × Option GoError
  | [] => ([], none)
  | x :: rest =>
    match x.err with
    | none => let r := ioCopy rest; (x.data ++ r.1, r.2)
    | some .eof => (x.data, none)
    | some err => (x.data, some err)

/-- The libraries the package calls but does not define. `gzipFull b` is the complete gzip
stream of `b`; `gzipFlushed b` is the part of the compressed output that had already left
the 32768-byte `bufio.Writer` when the copy stopped with an error after reading `b`;
`canonicalDigest` is `digest.Canonical` applied to the bytes written to the hash;
`retryOnError` is the package's error classifier. -/
structure Libs where
  gzipFull : List Byte → List Byte
  gzipFlushed : List Byte → List Byte
  canonicalDigest : List Byte → String
  retryOnError : GoError → GoError

/-- The reads served by the read end of an `io.Pipe` that carries `b`, with the 4096-byte
buffer of `getIOreaderSize`. Where the boundaries between reads fall depends on scheduling;
only their concatenation matters to the byte count and the digest. -/
def pipeReads (b : List Byte) : List ReadResult :=
  (chunks 4096 b.length b).map (fun c => ⟨c, none⟩)

/-- The function `compress`, as the script of the returned pipe reader. The goroutine copies
the source through gzip into the pipe; on success the pipe is closed (reads end with
`io.EOF`), on failure `CloseWithError(err)` makes the read end return `(0, err)`. -/
def compress (lib : Libs) (src : List ReadResult) : List ReadResult :=
  let r := ioCopy src
  match r.2 with
  | none => pipeReads (lib.gzipFull r.1)
  | some err => pipeReads (lib.gzipFlushed r.1) ++ [⟨[], some err⟩]

/-! ## Descriptors -/

/-- A node of the layer store behind `distribution.PushLayer`: what `DiffID()`, `MediaType()`
and `Open()` return for it. -/
structure LayerNode where
  DiffID : String
  MediaType : String
  Open : Except GoError (List ReadResult)

/-- A `PushLayer` handle: the node it points to followed by the nodes that `Parent()` reaches
in turn. The empty list is the `nil` handle, which is the parent of the base layer. -/
abbrev PushLayer := List LayerNode

/-- Lines 78-92 of `getDescriptor`: hash and count the content of `reader`. -/
def describeReader (lib : Libs) (reader : List ReadResult) : Descriptor × Option GoError :=
  let r := getIOreaderSize ⟨reader, []⟩
  match r.1.2 with
  | some err => (Descriptor.empty, some (lib.retryOnError err))
  | none => (⟨MediaTypeLayer, r.1.1, lib.canonicalDigest r.2.Reader.sink⟩, none)

/-- The function `getDescriptor`. -/
def getDescriptor (lib : Libs) (layer : LayerNode) (_id : String) :
    Descriptor × Option GoError :=
  match layer.Open with
  | .error err => (Descriptor.empty, some (lib.retryOnError err))
  | .ok contentReader =>
    let m := layer.MediaType
    if m = MediaTypeUncompressedLayer then
      describeReader lib (compress lib contentReader)
    else if m = MediaTypeLayer then
      describeReader lib contentReader
    else
      (Descriptor.empty, some (.doNotRetry (.other ("unsupported layer media type " ++ m))))

/-- Library function `bytes.NewReader(b)`, as the reads it serves to `io.ReadAll`, whose
buffer starts at 512 bytes. -/
def bytesNewReader (b : List Byte) : List ReadResult :=
  (chunks 512 b.length b).map (fun c => ⟨c, none⟩)

/-- Library function `io.ReadAll`, on the reader state `(script, sink)`: the data read, the
error (`io.EOF` is not reported) and the reader afterwards. -/
def ioReadAll : List ReadResult → List Byte → (List Byte × Option GoError) × Reader
  | [], sink => (([], none), ⟨[], sink⟩)
  | x :: rest, sink =>
    match x.err with
    | none => let r := ioReadAll rest (sink ++ x.data); ((x.data ++ r.1.1, r.1.2), r.2)
    | some .eof => ((x.data, none), ⟨rest, sink ++ x.data⟩)
    | some err => ((x.data, some err), ⟨rest, sink ++ x.data⟩)

/-- The function `getConfigDescriptor`. `len(configJSON)` always fits `int64`. -/
def getConfigDescriptor (lib : Libs) (configMediaType : String) (configJSON : List Byte) :
    Descriptor × Option GoError :=
  let r := ioReadAll (bytesNewReader configJSON) []
  match r.1.2 with
  | some err => (Descriptor.empty, some err)
  | none => (⟨configMediaType, configJSON.length, lib.canonicalDigest r.2.sink⟩, none)

/-! ## Manifest assembly -/

/-- The type `manifest.Versioned`. -/
structure Versioned where
  SchemaVersion : Int
  MediaType : String
  deriving DecidableEq, Repr

/-- Constant `schema2.SchemaVersion`. -/
def SchemaVersion : Versioned := ⟨2, MediaTypeManifest⟩

/-- The type `schema2.Manifest`. -/
structure Manifest where
  Versioned : Versioned
  Config : Descriptor
  Layers : List Descriptor
  deriving DecidableEq, Repr

/-- Builtin `make([]distribution.Descriptor, n)`. -/
def makeDescriptors (n : Nat) : List Descriptor := List.replicate n Descriptor.empty

/-- Builtin `copy(dst, src)`: the first `min(len(dst), len(src))` elements of `dst` are
replaced by those of `src`. -/
def copySlice (dst src : List Descriptor) : List Descriptor :=
  src.take dst.length ++ dst.drop src.length

/-- Lines 100-105 of `generateMetadata`: the manifest value handed to `schema2.FromStruct`. -/
def assembleManifest (dependencies : List Descriptor) (configDescriptor : Descriptor) :
    Manifest :=
  { Versioned := SchemaVersion
    Layers := copySlice (makeDescriptors dependencies.length) dependencies
    Config := configDescriptor }

/-- How the walk over the layer chain ends: with the collected descriptors, with the error
of a failed `getDescriptor`, or with the run-time panic of a method call on a `nil`
handle. -/
inductive WalkResult where
  | done (dependencies : List Descriptor)
  | failed (err : GoError)
  | nilDereference
  deriving DecidableEq, Repr

/-- The loop `for range rootfs.DiffIDs` of `generateMetadata`, on the remaining entries of
`rootfs.DiffIDs`, the current handle `l` and the descriptors collected so far. An iteration
first evaluates `l.DiffID()`, which panics when `l` is `nil`. -/
def walkLayers (lib : Libs) : List String → PushLayer → List Descriptor → WalkResult
  | [], _, dependencies => .done dependencies
  | _ :: _, [], _ => .nilDereference
  | _ :: diffIDs, l :: parent, dependencies =>
    let r := getDescriptor lib l l.DiffID
    match r.2 with
    | some err => .failed err
    | none => walkLayers lib diffIDs parent (dependencies ++ [r.1])

/-- The type `reference.NamedTagged`. -/
structure Reference where
  name : String
  tag : String
  deriving DecidableEq, Repr

/-- The type `schema2.DeserializedManifest`: the manifest and its canonical JSON. -/
structure DeserializedManifest where
  manifest : Manifest
  canonical : List Byte
  deriving DecidableEq, Repr

/-- Library method `(*schema2.DeserializedManifest).Payload`, the concrete method that
`generateMetadata` calls: it returns the media type, the canonical bytes stored by
`schema2.FromStruct`, and always a `nil` error. -/
def DeserializedManifest.Payload (m : DeserializedManifest) :
    String × List Byte × Option GoError :=
  (m.manifest.Versioned.MediaType, m.canonical, none)

/-- The stores and library calls that `GenerateMetadata` reaches: the four constructors
called by `prepare` (their error results), the parsing and tagging of a non-empty repository
name inside `httputils.RepoTagReference`, the reference store, the image store (giving
`RawJSON()`), `json.Unmarshal` into `image.Image` (giving the `DiffIDs` of the `RootFS`
pointer, `none` for a `nil` pointer), the layer provider (keyed by the `DiffIDs` whose chain
ID is looked up), `schema2.FromStruct` and `os.WriteFile`. -/
structure Env where
  lib : Libs
  newStoreFromOptions : Option GoError
  newFSStoreBackend : Option GoError
  newReferenceStore : Option GoError
  newImageStore : Option GoError
  parseReference : String → String → Except GoError Reference
  referenceGet : Reference → Except GoError String
  imageGet : String → Except GoError (List Byte)
  unmarshalRootFS : List Byte → Except GoError (Option (List String))
  layerGet : List String → Except GoError PushLayer
  fromStruct : Manifest → Except GoError DeserializedManifest
  writeFile : String → List Byte → Option GoError

/-- The function `getLayerStore`: its error result. -/
def getLayerStore (env : Env) : Option GoError := env.newStoreFromOptions

/-- The function `prepare`: its error result. -/
def prepare (env : Env) : Option GoError :=
  match getLayerStore env with
  | some err => some err
  | none =>
    match env.newFSStoreBackend with
    | some err => some err
    | none =>
      match env.newReferenceStore with
      | some err => some err
      | none => env.newImageStore

/-- The function `rootFSFromConfig`. -/
def rootFSFromConfig (env : Env) (c : List Byte) : Except GoError (Option (List String)) :=
  env.unmarshalRootFS c

/-- How `generateMetadata` ends: it returns the pair `([]byte, error)` or it panics. -/
inductive Outcome where
  | ret (payload : List Byte) (err : Option GoError)
  | panic
  deriving DecidableEq, Repr

/-- Library function `httputils.RepoTagReference`: for an empty repository name it returns
`(nil, nil)`, otherwise the parsed and tagged reference or the parse error. -/
def RepoTagReference (env : Env) (repo tag : String) : Except GoError (Option Reference) :=
  if repo = "" then .ok none
  else
    match env.parseReference repo tag with
    | .error err => .error err
    | .ok ref => .ok (some ref)

/-- The function `generateMetadata`; `ref` is `none` for a `nil` reference, on which
`referenceStore.Get` panics. -/
def generateMetadata (env : Env) (ref : Option Reference) : Outcome :=
  match prepare env with
  | some err => .ret [] (some err)
  | none =>
  match ref with
  | none => .panic -- `referenceStore.Get(nil)` takes the name of a `nil` reference
  | some ref =>
  match env.referenceGet ref with
  | .error err => .ret [] (some err)
  | .ok imageID =>
  match env.imageGet imageID with
  | .error err => .ret [] (some err)
  | .ok rawJSON =>
  match rootFSFromConfig env rawJSON with
  | .error err => .ret [] (some err)
  | .ok none => .panic -- `rootfs.ChainID()` on a `nil` pointer
  | .ok (some diffIDs) =>
  match env.layerGet diffIDs with
  | .error err => .ret [] (some err)
  | .ok [] => .panic -- `defer l.Release()` on a `nil` handle
  | .ok (top :: parents) =>
  match walkLayers env.lib diffIDs (top :: parents) [] with
  | .nilDereference => .panic
  | .failed err => .ret [] (some err)
  | .done discovered =>
    let dependencies := getCanonicalLayer discovered
    let c := getConfigDescriptor env.lib MediaTypeImageConfig rawJSON
    match c.2 with
    | some err => .ret [] (some err)
    | none =>
      match env.fromStruct (assembleManifest dependencies c.1) with
      | .error err => .ret [] (some err)
      | .ok manifest =>
        -- the error of `manifest.Payload()` is only printed: `return canonicalManifest, nil`
        .ret manifest.Payload.2.1 none

/-- How `GenerateMetadata` ends: it returns an error value, having called `os.WriteFile` with
`written` (path and content) or not at all, or it panics. -/
inductive RunResult where
  | ret (err : Option GoError) (written : Option (String × List Byte))
  | panic
  deriving DecidableEq, Repr

/-- The function `GenerateMetadata`. -/
def GenerateMetadata (env : Env) (imgGUN : String) (filePath : String) : RunResult :=
  let g := parseGUN imgGUN
  match g.2.2 with
  | some err => .ret (some err) none
  | none =>
  match RepoTagReference env g.1 g.2.1 with
  | .error err => .ret (some err) none
  | .ok ref =>
  match generateMetadata env ref with
  | .panic => .panic
  | .ret _ (some err) => .ret (some err) none
  | .ret m none =>
    match env.writeFile filePath m with
    | some err => .ret (some err) (some (filePath, m))
    | none => .ret none (some (filePath, m))

/-- The lookups of `generateMetadata` succeed for `ref`: `prepare` reports no error, the
reference resolves to an image whose configuration bytes are `rawJSON`, the configuration
declares the root-filesystem chain `diffIDs`, and the layer provider returns the handle `l`
for that chain. -/
def Env.resolves (env : Env) (ref : Reference) (rawJSON : List Byte) (diffIDs : List String)
    (l : PushLayer) : Prop :=
  prepare env = none ∧
  ∃ imageID, env.referenceGet ref = .ok imageID ∧ env.imageGet imageID = .ok rawJSON ∧
    rootFSFromConfig env rawJSON = .ok (some diffIDs) ∧ env.layerGet diffIDs = .ok l

/-! ## Concrete collaborators for evaluating the code -/

/-- Modelled from the spec: the helper `retryOnError` is called by `getDescriptor` but is not
defined in the package's files. By the failure classifier of the spec (section 4.7) a
low-level failure is either `Retryable` or `Fatal`, and a failure that is already fatal stays
fatal; with `Fatal` being the `xfer.DoNotRetry` wrapper, the error value is passed on. -/
def retryOnError (err : GoError) : GoError := err

/-- Hexadecimal digit of a number below 16. -/
def hexDigit (n : Nat) : Char := "0123456789abcdef".data.getD n '0'

/-- A stand-in for the canonical digest: the algorithm name followed by the hexadecimal
form of the bytes themselves (collision-free, as the real digest is assumed to be). -/
def sampleDigest (b : List Byte) : String :=
  "sha256:" ++ String.mk (b.flatMap fun x => [hexDigit (x.val / 16), hexDigit (x.val % 16)])

/-- Sample libraries: a stand-in gzip that puts the two magic bytes in front of the input and
keeps everything in the `bufio.Writer` until the final flush. -/
def sampleLibs : Libs :=
  { gzipFull := fun b => [31, 139] ++ b
    gzipFlushed := fun _ => []
    canonicalDigest := sampleDigest
    retryOnError := retryOnError }

/-- A compressed layer whose content is read in two pieces. -/
def layerA : LayerNode :=
  { DiffID := "sha256:aa", MediaType := MediaTypeLayer
    Open := .ok [⟨[1, 2, 3], none⟩, ⟨[4, 5], none⟩] }

/-- An uncompressed layer. -/
def layerB : LayerNode :=
  { DiffID := "sha256:bb", MediaType := MediaTypeUncompressedLayer
    Open := .ok [⟨[7, 8], none⟩, ⟨[9], some .eof⟩] }

/-- A sample environment in which every store and library call succeeds, for an image with
configuration bytes `config`, root-filesystem chain `diffIDs` and top layer handle `l`. -/
def sampleEnv (config : List Byte) (diffIDs : List String) (l : PushLayer) : Env :=
  { lib := sampleLibs
    newStoreFromOptions := none
    newFSStoreBackend := none
    newReferenceStore := none
    newImageStore := none
    parseReference := fun name tag => .ok ⟨name, tag⟩
    referenceGet := fun _ => .ok "sha256:image"
    imageGet := fun _ => .ok config
    unmarshalRootFS := fun _ => .ok (some diffIDs)
    layerGet := fun _ => .ok l
    fromStruct := fun m => .ok ⟨m, config⟩
    writeFile := fun _ _ => none }

/-- A stream of five bytes that ends cleanly and whose second read delivers nothing, which
`io.Reader` allows (`0, nil`). -/
def stalledStream : List ReadResult := [⟨[1, 2, 3], none⟩, ⟨[], none⟩, ⟨[4, 5], none⟩]

/-- A stream that delivers three bytes and then fails: the read returns `(0, err)`, as the
read end of the compression pipe does after `CloseWithError(err)`. -/
def brokenStream : List ReadResult :=
  [⟨[1, 2, 3], none⟩, ⟨[], some (.other "unexpected EOF")⟩]

/-- A compressed layer whose content stream is `brokenStream`. -/
def brokenLayer : LayerNode :=
  { DiffID := "sha256:cc", MediaType := MediaTypeLayer, Open := .ok brokenStream }

/-- An uncompressed layer whose source stream is `brokenStream`, read through `compress`. -/
def brokenUncompressedLayer : LayerNode :=
  { DiffID := "sha256:dd", MediaType := MediaTypeUncompressedLayer, Open := .ok brokenStream }

/-- A stream of 8193 bytes, delivered by two full 4096-byte reads and a read of one byte that
comes with `io.EOF`. -/
def longStream : List ReadResult :=
  [⟨List.replicate 4096 7, none⟩, ⟨List.replicate 4096 8, none⟩, ⟨[9], some .eof⟩]

/-- A layer with an unrecognised media type whose content cannot be opened. -/
def unopenableLayer : LayerNode :=
  { DiffID := "sha256:ee", MediaType := "application/octet-stream"
    Open := .error (.other "open: input/output error") }

/-- The configuration bytes `\x7b"foo":"bar"\x7d` (ASCII, one byte per character). -/
def fooBarConfig : List Byte :=
  "\x7b\"foo\":\"bar\"\x7d".data.map fun c => Fin.ofNat c.toNat

/-- The sample environment for a one-layer image, with a `schema2.FromStruct` that fails. -/
def failingFromStructEnv : Env :=
  { sampleEnv [1, 2] ["sha256:aa"] [layerA] with
    fromStruct := fun _ => .error (.other "fromstruct: cannot serialise") }

/-! ## Facts about `getCanonicalLayer` -/

theorem getCanonicalLayer_fold (d : List Descriptor) (k : Nat) (hk : k ≤ d.length) :
    (List.range k).foldl
      (fun canonicalLayers i => canonicalLayers ++ (d[d.length - 1 - i]?).toList) []
      = (d.drop (d.length - k)).reverse := by
  induction k with
  | zero => simp
  | succ k ih =>
    have hlt : d.length - (k + 1) < d.length := by omega
    rw [List.range_succ, List.foldl_append, ih (by omega)]
    have h1 : d.length - 1 - k = d.length - (k + 1) := by omega
    have h2 : d.length - k = d.length - (k + 1) + 1 := by omega
    simp only [List.foldl_cons, List.foldl_nil, h1, List.getElem?_eq_getElem hlt,
      Option.toList_some]
    rw [List.drop_eq_getElem_cons hlt, List.reverse_cons, h2]

theorem getCanonicalLayer_eq_reverse (d : List Descriptor) :
    getCanonicalLayer d = d.reverse := by
  unfold getCanonicalLayer
  rw [getCanonicalLayer_fold d d.length (le_refl _)]
  simp

/-! ## Facts about `parseGUN` -/

theorem stringsSplit_ne_nil (sep : Char) (s : List Char) : stringsSplit sep s ≠ [] := by
  cases s with
  | nil => simp [stringsSplit]
  | cons c cs =>
    unfold stringsSplit
    split
    · simp
    · split <;> simp

theorem stringsSplit_spec (sep : Char) (s : List Char) :
    (∀ p ∈ stringsSplit sep s, sep ∉ p) ∧
    (stringsSplit sep s).length = s.count sep + 1 ∧
    List.intercalate [sep] (stringsSplit sep s) = s := by
  induction s with
  | nil => simp [stringsSplit, List.intercalate]
  | cons c cs ih =>
    obtain ⟨ih1, ih2, ih3⟩ := ih
    by_cases hc : c = sep
    · subst hc
      have hs : stringsSplit c (c :: cs) = [] :: stringsSplit c cs := by
        simp [stringsSplit]
      rw [hs]
      refine ⟨?_, ?_, ?_⟩
      · intro p hp
        rcases List.mem_cons.1 hp with h | h
        · subst h; simp
        · exact ih1 p h
      · simp [ih2]
      · cases hq : stringsSplit c cs with
        | nil => exact absurd hq (stringsSplit_ne_nil _ _)
        | cons q qs =>
          rw [hq] at ih3
          rw [← ih3]
          simp [List.intercalate, List.intersperse]
    · cases hq : stringsSplit sep cs with
      | nil => exact absurd hq (stringsSplit_ne_nil _ _)
      | cons q qs =>
        have hs : stringsSplit sep (c :: cs) = (c :: q) :: qs := by
          simp [stringsSplit, hc, hq]
        rw [hs]
        rw [hq] at ih1 ih2 ih3
        refine ⟨?_, ?_, ?_⟩
        · intro p hp
          rcases List.mem_cons.1 hp with h | h
          · subst h
            have := ih1 q (List.mem_cons_self _ _)
            simp only [List.mem_cons, not_or]
            exact ⟨fun h => hc h.symm, this⟩
          · exact ih1 p (List.mem_cons_of_mem _ h)
        · have : List.count sep (c :: cs) = List.count sep cs := by
            simp [List.count_cons, hc]
          rw [this, ← ih2]; simp
        · rw [← ih3]
          cases qs <;> simp [List.intercalate, List.intersperse]

/-- Claim C1. For every sequence `d` of descriptors, `getCanonicalLayer d` is exactly `d`
reversed: it has the length of `d`, and its element at index `i` is `d[len(d)-1-i]`. -/
theorem C1_getCanonicalLayer_is_reverse (d : List Descriptor) :
    getCanonicalLayer d = d.reverse ∧
    (getCanonicalLayer d).length = d.length ∧
    ∀ i, i < d.length → (getCanonicalLayer d)[i]? = d[d.length - 1 - i]? := by
  rw [getCanonicalLayer_eq_reverse]
  refine ⟨rfl, List.length_reverse d, ?_⟩
  intro i hi
  rw [List.getElem?_reverse hi]

/-- Witness for C1: the top-to-base list `[L2, L1, L0]` becomes `[L0, L1, L2]`, and index 0
of the result holds the last element of the input. -/
theorem C1_getCanonicalLayer_is_reverse_witness :
    getCanonicalLayer [⟨"t", 2, "L2"⟩, ⟨"t", 1, "L1"⟩, ⟨"t", 0, "L0"⟩]
      = [⟨"t", 0, "L0"⟩, ⟨"t", 1, "L1"⟩, ⟨"t", 2, "L2"⟩] ∧
    (getCanonicalLayer [⟨"t", 2, "L2"⟩, ⟨"t", 1, "L1"⟩, ⟨"t", 0, "L0"⟩])[0]?
      = some ⟨"t", 0, "L0"⟩ :=
  ⟨(C1_getCanonicalLayer_is_reverse
      [⟨"t", 2, "L2"⟩, ⟨"t", 1, "L1"⟩, ⟨"t", 0, "L0"⟩]).1,
   (C1_getCanonicalLayer_is_reverse
      [⟨"t", 2, "L2"⟩, ⟨"t", 1, "L1"⟩, ⟨"t", 0, "L0"⟩]).2.2 0 (by decide)⟩

/-- Claim C2. `getCanonicalLayer` is self-inverse: applying it twice to any sequence of
descriptors, the empty one included, gives the sequence back. -/
theorem C2_getCanonicalLayer_involutive (xs : List Descriptor) :
    getCanonicalLayer (getCanonicalLayer xs) = xs := by
  rw [getCanonicalLayer_eq_reverse, getCanonicalLayer_eq_reverse, List.reverse_reverse]

/-- Claim C10. `parseGUN s` fails exactly when `s` holds three or more `:`; without a `:`
it returns `(s, "latest")`; with one or two it returns `(repo, tag)` where `tag` has no `:`
and `repo ++ ":" ++ tag` is `s`, so `tag` is the text after the last `:`. -/
theorem C10_parseGUN_spec (s : String) :
    ((parseGUN s).2.2 ≠ none ↔ 3 ≤ s.data.count ':') ∧
    (s.data.count ':' = 0 → parseGUN s = (s, "latest", none)) ∧
    (s.data.count ':' = 1 ∨ s.data.count ':' = 2 →
      ∃ repo tag, parseGUN s = (repo, tag, none) ∧ ':' ∉ tag.data ∧ repo ++ ":" ++ tag = s) := by
  obtain ⟨h1, h2, h3⟩ := stringsSplit_spec ':' s.data
  unfold parseGUN
  match hq : stringsSplit ':' s.data with
  | [] => exact absurd hq (stringsSplit_ne_nil _ _)
  | [a] =>
    rw [hq] at h2 h3
    have hc : s.data.count ':' = 0 := by simpa using h2.symm
    have ha : a = s.data := by simpa [List.intercalate, List.intersperse] using h3
    subst ha
    simp [hc]
  | [a, b] =>
    rw [hq] at h1 h2 h3
    have hc : s.data.count ':' = 1 := by simpa using h2.symm
    have hb : ':' ∉ b := h1 b (by simp)
    have hab : a ++ ':' :: b = s.data := by
      simpa [List.intercalate, List.intersperse] using h3
    simp only [List.map, hc]
    refine ⟨by simp, by simp, fun _ => ⟨String.mk a, String.mk b, rfl, hb, ?_⟩⟩
    apply String.ext
    simp [String.data_append, ← hab]
  | [a, b, c] =>
    rw [hq] at h1 h2 h3
    have hc : s.data.count ':' = 2 := by simpa using h2.symm
    have hb : ':' ∉ c := h1 c (by simp)
    have hab : a ++ ':' :: (b ++ ':' :: c) = s.data := by
      simpa [List.intercalate, List.intersperse] using h3
    simp only [List.map, hc]
    refine ⟨by simp, by simp,
      fun _ => ⟨String.mk a ++ ":" ++ String.mk b, String.mk c, rfl, hb, ?_⟩⟩
    apply String.ext
    simp [String.data_append, ← hab]
  | a :: b :: c :: e :: rest =>
    rw [hq] at h2
    have hc : 3 ≤ s.data.count ':' := by
      simp only [List.length_cons] at h2; omega
    simp only [List.map]
    refine ⟨by simpa using hc, fun h => by omega, fun h => by omega⟩

/-- Witness for C10: the reference of `main` has two `:` and splits at the last one. -/
theorem C10_parseGUN_spec_witness :
    "192.168.128.69:8888/library/hello-world:latest".data.count ':' = 2 ∧
    parseGUN "192.168.128.69:8888/library/hello-world:latest"
      = ("192.168.128.69:8888/library/hello-world", "latest", none) ∧
    ∃ repo tag, parseGUN "192.168.128.69:8888/library/hello-world:latest" = (repo, tag, none) ∧
      ':' ∉ tag.data ∧ repo ++ ":" ++ tag = "192.168.128.69:8888/library/hello-world:latest" :=
  ⟨by decide, by decide,
   (C10_parseGUN_spec "192.168.128.69:8888/library/hello-world:latest").2.2
     (Or.inr (by decide))⟩
/-! ## Facts about readers -/

theorem wrapInt64_of_fits (x : Int) (h0 : 0 ≤ x) (h1 : x < 2 ^ 63) : wrapInt64 x = x := by
  unfold wrapInt64
  rw [Int.emod_eq_of_lt (by omega) (by omega)]
  omega

theorem streamBytes_cons (x : ReadResult) (rest : List ReadResult) :
    streamBytes (x :: rest) = x.data ++ streamBytes rest := by
  simp [streamBytes]

theorem getIOreaderSizeLoop_clean (script : List ReadResult) :
    ∀ (sink : List Byte) (total : Int),
      (∀ r ∈ script, r.data ≠ [] ∧ (r.err = none ∨ r.err = some .eof)) →
      0 ≤ total → total + (streamBytes script).length < 2 ^ 63 →
      getIOreaderSizeLoop script sink total
        = ((total + (streamBytes script).length, none),
           ⟨⟨[], sink ++ streamBytes script⟩, total + (streamBytes script).length⟩) := by
  induction script with
  | nil =>
    intro sink total _ h0 h1
    have : wrapInt64 total = total := wrapInt64_of_fits total h0 (by simpa [streamBytes] using h1)
    simp [getIOreaderSizeLoop, SizeCountingReader.Read, Reader.Read, streamBytes, this]
  | cons x rest ih =>
    intro sink total hclean h0 h1
    obtain ⟨hne, herr⟩ := hclean x (List.mem_cons_self _ _)
    rw [streamBytes_cons] at h1 ⊢
    rw [List.length_append] at h1 ⊢
    push_cast at h1 ⊢
    have hpos : (0 : Int) < x.data.length := by
      have := List.length_pos.2 hne
      exact_mod_cast this
    have hw : wrapInt64 (total + x.data.length) = total + x.data.length :=
      wrapInt64_of_fits _ (by omega) (by omega)
    have hrest := ih (sink ++ x.data) (total + x.data.length)
      (fun r hr => hclean r (List.mem_cons_of_mem _ hr)) (by omega) (by omega)
    have hn0 : ¬ ((x.data.length : Int) = 0) := by omega
    have hnoerr : ¬ (x.err ≠ none ∧ x.err ≠ some GoError.eof) := by
      rcases herr with h | h <;> simp [h]
    simp only [getIOreaderSizeLoop, SizeCountingReader.Read, Reader.Read, hw, hn0, hnoerr,
      if_false]
    rw [hrest]
    simp [List.append_assoc, Int.add_assoc]

theorem getIOreaderSizeLoop_no_error (script : List ReadResult) :
    ∀ (sink : List Byte) (total : Int),
      (∀ r ∈ script, r.err = none ∨ r.err = some .eof) →
      (getIOreaderSizeLoop script sink total).1.2 = none := by
  induction script with
  | nil => intro sink total _; simp [getIOreaderSizeLoop]
  | cons x rest ih =>
    intro sink total hclean
    have hnoerr : ¬ (x.err ≠ none ∧ x.err ≠ some GoError.eof) := by
      rcases hclean x (List.mem_cons_self _ _) with h | h <;> simp [h]
    simp only [getIOreaderSizeLoop, SizeCountingReader.Read, Reader.Read, hnoerr, if_false]
    split
    · rfl
    · exact ih _ _ (fun r hr => hclean r (List.mem_cons_of_mem _ hr))

theorem ioCopy_no_error (script : List ReadResult)
    (hclean : ∀ r ∈ script, r.err = none ∨ r.err = some .eof) : (ioCopy script).2 = none := by
  induction script with
  | nil => simp [ioCopy]
  | cons x rest ih =>
    rcases hclean x (List.mem_cons_self _ _) with h | h
    · simp only [ioCopy, h]
      exact ih (fun r hr => hclean r (List.mem_cons_of_mem _ hr))
    · simp [ioCopy, h]

theorem pipeReads_clean (b : List Byte) : ∀ r ∈ pipeReads b, r.err = none ∨ r.err = some .eof := by
  intro r hr
  simp only [pipeReads, List.mem_map] at hr
  obtain ⟨c, _, rfl⟩ := hr
  exact Or.inl rfl

theorem describeReader_ok (lib : Libs) (reader : List ReadResult)
    (hclean : ∀ r ∈ reader, r.err = none ∨ r.err = some .eof) :
    (describeReader lib reader).2 = none := by
  have h := getIOreaderSizeLoop_no_error reader [] 0 hclean
  simp only [describeReader, getIOreaderSize, h]

theorem getDescriptor_ok (lib : Libs) (n : LayerNode) (id : String) (content : List ReadResult)
    (hopen : n.Open = .ok content)
    (hmedia : n.MediaType = MediaTypeUncompressedLayer ∨ n.MediaType = MediaTypeLayer)
    (hclean : ∀ r ∈ content, r.err = none ∨ r.err = some .eof) :
    (getDescriptor lib n id).2 = none := by
  unfold getDescriptor
  rw [hopen]
  rcases hmedia with h | h
  · simp only [h, if_true]
    apply describeReader_ok
    have hc : compress lib content = pipeReads (lib.gzipFull (ioCopy content).1) := by
      simp only [compress, ioCopy_no_error content hclean]
    rw [hc]
    exact pipeReads_clean _
  · have hne : MediaTypeLayer ≠ MediaTypeUncompressedLayer := by decide
    simp only [h, hne, if_false, if_true]
    exact describeReader_ok lib content hclean
/-- Claim C6, the code at the failing input. A read that returns zero bytes together with an
error other than `io.EOF` ends the loop of `getIOreaderSize` before the error is looked at:
the bytes counted so far are returned with a `nil` error, whatever the error and whatever
would follow, and `getDescriptor` returns a descriptor of the truncated content, for a
compressed layer and, through the pipe of `compress`, for an uncompressed one. -/
theorem C6_zero_byte_read_error_is_lost :
    (∀ (err : GoError) (rest : List ReadResult),
      getIOreaderSize ⟨⟨[], some err⟩ :: rest, []⟩ = ((0, none), ⟨⟨rest, []⟩, 0⟩)) ∧
    getIOreaderSize ⟨brokenStream, []⟩ = ((3, none), ⟨⟨[], [1, 2, 3]⟩, 3⟩) ∧
    getDescriptor sampleLibs brokenLayer brokenLayer.DiffID
      = (⟨MediaTypeLayer, 3, "sha256:010203"⟩, none) ∧
    compress sampleLibs brokenStream = [⟨[], some (.other "unexpected EOF")⟩] ∧
    getDescriptor sampleLibs brokenUncompressedLayer brokenUncompressedLayer.DiffID
      = (⟨MediaTypeLayer, 0, "sha256:"⟩, none) := by
  refine ⟨?_, by decide, by decide, by decide, by decide⟩
  intro err rest
  simp [getIOreaderSize, getIOreaderSizeLoop, SizeCountingReader.Read, Reader.Read, wrapInt64]

/-- Claim C7 fails as stated: `stalledStream` ends cleanly and holds five bytes, but its
second read delivers no byte, and `getIOreaderSize` stops there: it returns 3, with two bytes
left unread. -/
theorem C7_zero_byte_read_stops_the_count :
    (∀ r ∈ stalledStream, r.err = none) ∧
    (streamBytes stalledStream).length = 5 ∧
    getIOreaderSize ⟨stalledStream, []⟩ = ((3, none), ⟨⟨[⟨[4, 5], none⟩], [1, 2, 3]⟩, 3⟩) ∧
    (getIOreaderSize ⟨stalledStream, []⟩).1 ≠ (((streamBytes stalledStream).length : Int), none) := by
  decide

/-- Claim C7, amended. For every finite stream that ends cleanly (no read reports an error
other than `io.EOF`), whose reads each deliver at least one byte and whose byte count fits
`int64`, `getIOreaderSize` consumes the stream fully (no read is left and every byte has
passed through the reader) and returns, with no error, the number of bytes of the stream. -/
theorem C7_getIOreaderSize_counts_all_bytes (script : List ReadResult)
    (hreads : ∀ r ∈ script, r.data ≠ [] ∧ (r.err = none ∨ r.err = some .eof))
    (hfits : ((streamBytes script).length : Int) < 2 ^ 63) :
    getIOreaderSize ⟨script, []⟩
      = ((((streamBytes script).length : Int), none),
         ⟨⟨[], streamBytes script⟩, ((streamBytes script).length : Int)⟩) := by
  have h := getIOreaderSizeLoop_clean script [] 0 hreads (le_refl _) (by simpa using hfits)
  simpa [getIOreaderSize] using h

/-- Witness for C7: a stream of 8193 bytes, larger than the 4096-byte buffer, is counted in
full. -/
theorem C7_getIOreaderSize_counts_all_bytes_witness :
    (getIOreaderSize ⟨longStream, []⟩).1 = (8193, none) ∧
    (getIOreaderSize ⟨longStream, []⟩).2.Reader.script = [] := by
  have hreads : ∀ r ∈ longStream, r.data ≠ [] ∧ (r.err = none ∨ r.err = some .eof) := by
    intro r hr
    simp only [longStream, List.mem_cons, List.mem_singleton, List.not_mem_nil, or_false] at hr
    rcases hr with h | h | h <;> subst h
    · refine ⟨List.ne_nil_of_length_pos ?_, Or.inl rfl⟩
      show 0 < (List.replicate 4096 (7 : Byte)).length
      rw [List.length_replicate]; norm_num
    · refine ⟨List.ne_nil_of_length_pos ?_, Or.inl rfl⟩
      show 0 < (List.replicate 4096 (8 : Byte)).length
      rw [List.length_replicate]; norm_num
    · exact ⟨by simp, Or.inr rfl⟩
  have hlen : (streamBytes longStream).length = 8193 := by
    simp only [streamBytes, longStream, List.flatMap_cons, List.flatMap_nil,
      List.length_append, List.length_replicate, List.length_cons, List.length_nil]
  have h := C7_getIOreaderSize_counts_all_bytes longStream hreads (by rw [hlen]; norm_num)
  rw [h, hlen]
  exact ⟨rfl, rfl⟩
/-! ## Facts about the walk and the assembly -/

theorem walkLayers_cons (lib : Libs) (id : String) (ids : List String) (l : LayerNode)
    (parent : PushLayer) (acc : List Descriptor) :
    walkLayers lib (id :: ids) (l :: parent) acc
      = match (getDescriptor lib l l.DiffID).2 with
        | some err => .failed err
        | none => walkLayers lib ids parent (acc ++ [(getDescriptor lib l l.DiffID).1]) := rfl

theorem walkLayers_through (lib : Libs) (above : List LayerNode) :
    ∀ (diffIDs : List String) (rest : PushLayer) (acc : List Descriptor),
      (∀ n ∈ above, (getDescriptor lib n n.DiffID).2 = none) →
      above.length ≤ diffIDs.length →
      walkLayers lib diffIDs (above ++ rest) acc
        = walkLayers lib (diffIDs.drop above.length) rest
            (acc ++ above.map (fun n => (getDescriptor lib n n.DiffID).1)) := by
  induction above with
  | nil => intro diffIDs rest acc _ _; simp
  | cons a above ih =>
    intro diffIDs rest acc hok hlen
    cases diffIDs with
    | nil => simp at hlen
    | cons id ids =>
      have ha := hok a (List.mem_cons_self _ _)
      rw [List.cons_append, walkLayers_cons, ha]
      rw [ih ids rest _ (fun n hn => hok n (List.mem_cons_of_mem _ hn))
        (by simpa using hlen)]
      simp [List.append_assoc]

theorem copySlice_make (deps : List Descriptor) :
    copySlice (makeDescriptors deps.length) deps = deps := by
  simp [copySlice, makeDescriptors]

theorem generateMetadata_nil_handle (env : Env) (ref : Reference) (rawJSON : List Byte)
    (diffIDs : List String) (h : env.resolves ref rawJSON diffIDs []) :
    generateMetadata env (some ref) = .panic := by
  obtain ⟨h1, imageID, h2, h3, h4, h5⟩ := h
  simp [generateMetadata, h1, h2, h3, h4, h5]

theorem generateMetadata_walk_panic (env : Env) (ref : Reference) (rawJSON : List Byte)
    (diffIDs : List String) (l : PushLayer) (h : env.resolves ref rawJSON diffIDs l)
    (hw : walkLayers env.lib diffIDs l [] = .nilDereference) :
    generateMetadata env (some ref) = .panic := by
  cases l with
  | nil => exact generateMetadata_nil_handle env ref rawJSON diffIDs h
  | cons top parents =>
    obtain ⟨h1, imageID, h2, h3, h4, h5⟩ := h
    simp [generateMetadata, h1, h2, h3, h4, h5, hw]

theorem generateMetadata_walk_failed (env : Env) (ref : Reference) (rawJSON : List Byte)
    (diffIDs : List String) (top : LayerNode) (parents : PushLayer) (err : GoError)
    (h : env.resolves ref rawJSON diffIDs (top :: parents))
    (hw : walkLayers env.lib diffIDs (top :: parents) [] = .failed err) :
    generateMetadata env (some ref) = .ret [] (some err) := by
  obtain ⟨h1, imageID, h2, h3, h4, h5⟩ := h
  simp [generateMetadata, h1, h2, h3, h4, h5, hw]

/-- Claim C3. When `rootfs.DiffIDs` has length `N`, the layer chain has exactly `N` nodes
down to the base, and every node opens, has a recognised media type and reads without error,
the walk of `generateMetadata` produces exactly `N` descriptors, the `k`-th one being the
descriptor that `getDescriptor` returns (without error) for the node `k` hops below the top,
and the assembled manifest has `N` layers. -/
theorem C3_walk_yields_one_descriptor_per_node (lib : Libs) (diffIDs : List String)
    (chain : PushLayer) (hlen : diffIDs.length = chain.length)
    (hvalid : ∀ n ∈ chain, ∃ content, n.Open = .ok content ∧
      (n.MediaType = MediaTypeUncompressedLayer ∨ n.MediaType = MediaTypeLayer) ∧
      ∀ r ∈ content, r.err = none ∨ r.err = some .eof) :
    ∃ discovered, walkLayers lib diffIDs chain [] = .done discovered ∧
      discovered.length = diffIDs.length ∧
      (∀ k (hk : k < chain.length),
        (getDescriptor lib chain[k] chain[k].DiffID).2 = none ∧
        discovered[k]? = some (getDescriptor lib chain[k] chain[k].DiffID).1) ∧
      ∀ config, (assembleManifest (getCanonicalLayer discovered) config).Layers.length
        = diffIDs.length := by
  have hok : ∀ n ∈ chain, (getDescriptor lib n n.DiffID).2 = none := by
    intro n hn
    obtain ⟨content, ho, hm, hc⟩ := hvalid n hn
    exact getDescriptor_ok lib n n.DiffID content ho hm hc
  have hw := walkLayers_through lib chain diffIDs [] [] hok (by omega)
  have hdrop : diffIDs.drop chain.length = [] := by
    rw [← hlen]; exact List.drop_length diffIDs
  rw [List.append_nil, hdrop] at hw
  simp only [walkLayers, List.nil_append] at hw
  refine ⟨_, hw, by simp [hlen], ?_, ?_⟩
  · intro k hk
    refine ⟨hok _ (List.getElem_mem _), ?_⟩
    simp [List.getElem?_map, List.getElem?_eq_getElem hk]
  · intro config
    show (copySlice (makeDescriptors (getCanonicalLayer _).length) (getCanonicalLayer _)).length
      = diffIDs.length
    rw [copySlice_make, getCanonicalLayer_eq_reverse]
    simp [hlen]

/-- Witness for C3: a chain of two layers, one compressed and one uncompressed, under a
root-filesystem chain of two entries. -/
theorem C3_walk_yields_one_descriptor_per_node_witness :
    ∃ discovered, walkLayers sampleLibs ["sha256:aa", "sha256:bb"] [layerA, layerB] []
        = .done discovered ∧
      discovered.length = 2 ∧
      (∀ k (hk : k < 2),
        (getDescriptor sampleLibs [layerA, layerB][k] [layerA, layerB][k].DiffID).2 = none ∧
        discovered[k]?
          = some (getDescriptor sampleLibs [layerA, layerB][k] [layerA, layerB][k].DiffID).1) ∧
      ∀ config, (assembleManifest (getCanonicalLayer discovered) config).Layers.length = 2 :=
  C3_walk_yields_one_descriptor_per_node sampleLibs ["sha256:aa", "sha256:bb"]
    [layerA, layerB] rfl (by
      intro n hn
      simp only [List.mem_cons, List.mem_singleton, List.not_mem_nil, or_false] at hn
      rcases hn with h | h <;> subst h
      · exact ⟨_, rfl, Or.inr rfl, by decide⟩
      · exact ⟨_, rfl, Or.inl rfl, by decide⟩)
/-- Claim C4 fails as stated: with one valid layer under a root-filesystem chain of two
entries the walk ends in a nil dereference, not in an error value, so no failure classified
fatal is returned; `generateMetadata` panics. -/
theorem C4_mismatched_chain_returns_no_error :
    walkLayers sampleLibs ["sha256:aa", "sha256:zz"] [layerA] [] = .nilDereference ∧
    (¬ ∃ err, walkLayers sampleLibs ["sha256:aa", "sha256:zz"] [layerA] [] = .failed err ∧
      err.isFatal = true) ∧
    generateMetadata (sampleEnv [1, 2] ["sha256:aa", "sha256:zz"] [layerA]) (some ⟨"repo", "tag"⟩)
      = .panic ∧
    ¬ ∃ payload err,
      generateMetadata (sampleEnv [1, 2] ["sha256:aa", "sha256:zz"] [layerA]) (some ⟨"repo", "tag"⟩)
        = .ret payload (some err) ∧ err.isFatal = true := by
  have hw : walkLayers sampleLibs ["sha256:aa", "sha256:zz"] [layerA] [] = .nilDereference := by
    decide
  have hg : generateMetadata (sampleEnv [1, 2] ["sha256:aa", "sha256:zz"] [layerA])
      (some ⟨"repo", "tag"⟩) = .panic := by decide
  refine ⟨hw, ?_, hg, ?_⟩
  · rintro ⟨err, h, _⟩
    rw [hw] at h
    cases h
  · rintro ⟨payload, err, h, _⟩
    rw [hg] at h
    cases h

/-- Claim C4, amended. For a mismatched chain, where the layer chain has `N` nodes, each of
which yields a descriptor, but the root-filesystem chain declares `N + 1` entries, the walk
returns no descriptors and no error value: after `N` descriptors the next iteration calls
`DiffID` on the `nil` parent handle, and `generateMetadata` ends in a run-time panic without
a payload. -/
theorem C4_mismatched_chain_ends_in_nil_dereference (lib : Libs) (diffIDs : List String)
    (chain : PushLayer) (hlen : diffIDs.length = chain.length + 1)
    (hok : ∀ n ∈ chain, (getDescriptor lib n n.DiffID).2 = none) :
    walkLayers lib diffIDs chain [] = .nilDereference ∧
    ∀ (env : Env) (ref : Reference) (rawJSON : List Byte), env.lib = lib →
      env.resolves ref rawJSON diffIDs chain → generateMetadata env (some ref) = .panic := by
  have hw : walkLayers lib diffIDs chain [] = .nilDereference := by
    have h := walkLayers_through lib chain diffIDs [] [] hok (by omega)
    rw [List.append_nil] at h
    rw [h]
    cases hd : diffIDs.drop chain.length with
    | nil =>
      have := congrArg List.length hd
      simp only [List.length_drop, List.length_nil] at this
      omega
    | cons id ids => rfl
  refine ⟨hw, ?_⟩
  intro env ref rawJSON hlib hres
  subst hlib
  exact generateMetadata_walk_panic env ref rawJSON diffIDs chain hres hw

/-- Witness for C4: one valid layer under a root-filesystem chain of two entries. -/
theorem C4_mismatched_chain_ends_in_nil_dereference_witness :
    walkLayers sampleLibs ["sha256:aa", "sha256:zz"] [layerA] [] = .nilDereference :=
  (C4_mismatched_chain_ends_in_nil_dereference sampleLibs ["sha256:aa", "sha256:zz"] [layerA]
    rfl (by
      intro n hn
      simp only [List.mem_singleton] at hn
      subst hn
      decide)).1

/-- Claim C5 fails as stated: a layer that declares an unrecognised media type and whose
`Open` fails makes `getDescriptor` return the classified `Open` error, which is not the
unsupported-media-type error and is not fatal; `generateMetadata` fails with that error. -/
theorem C5_open_error_precedes_media_type_check :
    unopenableLayer.MediaType ≠ MediaTypeUncompressedLayer ∧
    unopenableLayer.MediaType ≠ MediaTypeLayer ∧
    getDescriptor sampleLibs unopenableLayer unopenableLayer.DiffID
      = (Descriptor.empty, some (.other "open: input/output error")) ∧
    (GoError.other "open: input/output error").isFatal = false ∧
    generateMetadata (sampleEnv [1, 2] ["sha256:ee"] [unopenableLayer]) (some ⟨"repo", "tag"⟩)
      = .ret [] (some (.other "open: input/output error")) := by
  decide

/-- Claim C5, amended. If a layer node of the chain opens successfully and declares a media
type that is neither `schema2.MediaTypeUncompressedLayer` nor `schema2.MediaTypeLayer`,
`getDescriptor` returns an empty descriptor and the fatal (`xfer.DoNotRetry`)
unsupported-media-type error; when the walk reaches that node (every node above it yields a
descriptor and the root-filesystem chain is long enough), the walk and `generateMetadata`
fail with that error and no payload, whatever the position of the node and whatever the
layers below it. -/
theorem C5_unsupported_media_type_is_fatal (lib : Libs) (above below : List LayerNode)
    (bad : LayerNode) (content : List ReadResult) (diffIDs : List String)
    (hopen : bad.Open = .ok content)
    (hm1 : bad.MediaType ≠ MediaTypeUncompressedLayer) (hm2 : bad.MediaType ≠ MediaTypeLayer)
    (habove : ∀ n ∈ above, (getDescriptor lib n n.DiffID).2 = none)
    (hlen : above.length < diffIDs.length) :
    getDescriptor lib bad bad.DiffID
      = (Descriptor.empty,
         some (.doNotRetry (.other ("unsupported layer media type " ++ bad.MediaType)))) ∧
    (GoError.doNotRetry (.other ("unsupported layer media type " ++ bad.MediaType))).isFatal
      = true ∧
    walkLayers lib diffIDs (above ++ bad :: below) []
      = .failed (.doNotRetry (.other ("unsupported layer media type " ++ bad.MediaType))) ∧
    ∀ (env : Env) (ref : Reference) (rawJSON : List Byte), env.lib = lib →
      env.resolves ref rawJSON diffIDs (above ++ bad :: below) →
      generateMetadata env (some ref)
        = .ret [] (some (.doNotRetry (.other ("unsupported layer media type " ++ bad.MediaType)))) := by
  have hd : getDescriptor lib bad bad.DiffID
      = (Descriptor.empty,
         some (.doNotRetry (.other ("unsupported layer media type " ++ bad.MediaType)))) := by
    simp [getDescriptor, hopen, hm1, hm2]
  have hw : walkLayers lib diffIDs (above ++ bad :: below) []
      = .failed (.doNotRetry (.other ("unsupported layer media type " ++ bad.MediaType))) := by
    rw [walkLayers_through lib above diffIDs (bad :: below) [] habove (by omega)]
    cases hdrop : diffIDs.drop above.length with
    | nil =>
      have := congrArg List.length hdrop
      simp only [List.length_drop, List.length_nil] at this
      omega
    | cons id ids => rw [walkLayers_cons, hd]
  refine ⟨hd, rfl, hw, ?_⟩
  intro env ref rawJSON hlib hres
  subst hlib
  cases above with
  | nil => exact generateMetadata_walk_failed env ref rawJSON diffIDs bad below _ hres hw
  | cons a as => exact generateMetadata_walk_failed env ref rawJSON diffIDs a _ _ hres hw

/-- Witness for C5: the offending layer sits below a valid one and above another valid one. -/
theorem C5_unsupported_media_type_is_fatal_witness :
    walkLayers sampleLibs ["d2", "d1", "d0"]
        ([layerA] ++ { layerB with MediaType := "application/octet-stream" } :: [layerB]) []
      = .failed (.doNotRetry (.other "unsupported layer media type application/octet-stream")) :=
  (C5_unsupported_media_type_is_fatal sampleLibs [layerA] [layerB]
    { layerB with MediaType := "application/octet-stream" } _ ["d2", "d1", "d0"]
    rfl (by decide) (by decide)
    (by
      intro n hn
      simp only [List.mem_singleton] at hn
      subst hn
      decide)
    (by decide)).2.2.1
/-! ## Facts about the configuration descriptor -/

theorem streamBytes_chunks (size : Nat) (hs : 0 < size) :
    ∀ (fuel : Nat) (b : List Byte), b.length ≤ fuel →
      streamBytes ((chunks size fuel b).map (fun c => (⟨c, none⟩ : ReadResult))) = b := by
  intro fuel
  induction fuel with
  | zero =>
    intro b hb
    have : b = [] := List.length_eq_zero.1 (by omega)
    simp [chunks, streamBytes, this]
  | succ fuel ih =>
    intro b hb
    by_cases hnil : b = []
    · simp [chunks, streamBytes, hnil]
    · have hpos : 0 < b.length := List.length_pos.2 hnil
      have hrest : (b.drop size).length ≤ fuel := by
        rw [List.length_drop]; omega
      simp only [chunks, hnil, if_false, List.map_cons, streamBytes_cons]
      rw [ih (b.drop size) hrest, List.take_append_drop]

theorem ioReadAll_plain (script : List ReadResult) :
    ∀ (sink : List Byte), (∀ r ∈ script, r.err = none) →
      ioReadAll script sink
        = ((streamBytes script, none), ⟨[], sink ++ streamBytes script⟩) := by
  induction script with
  | nil => intro sink _; simp [ioReadAll, streamBytes]
  | cons x rest ih =>
    intro sink h
    have hx := h x (List.mem_cons_self _ _)
    simp only [ioReadAll, hx, streamBytes_cons]
    rw [ih _ (fun r hr => h r (List.mem_cons_of_mem _ hr))]
    simp [List.append_assoc]

/-- Claim C8. For every byte sequence `b` and media type `t`, `getConfigDescriptor t b`
returns no error and the descriptor with media type `t`, size `len(b)` and the canonical
digest of exactly the bytes `b`, a function of `(t, b)` alone; for the thirteen bytes of
`fooBarConfig` the size is 13. -/
theorem C8_getConfigDescriptor_spec (lib : Libs) (t : String) (b : List Byte) :
    getConfigDescriptor lib t b = (⟨t, (b.length : Int), lib.canonicalDigest b⟩, none) ∧
    (getConfigDescriptor lib t fooBarConfig).1.Size = 13 ∧
    (getConfigDescriptor lib t fooBarConfig).2 = none := by
  have key : ∀ c : List Byte,
      getConfigDescriptor lib t c = (⟨t, (c.length : Int), lib.canonicalDigest c⟩, none) := by
    intro c
    have hplain : ∀ r ∈ bytesNewReader c, r.err = none := by
      intro r hr
      simp only [bytesNewReader, List.mem_map] at hr
      obtain ⟨_, _, rfl⟩ := hr
      rfl
    have hbytes : streamBytes (bytesNewReader c) = c :=
      streamBytes_chunks 512 (by norm_num) c.length c (le_refl _)
    simp only [getConfigDescriptor, ioReadAll_plain _ [] hplain, hbytes, List.nil_append]
  refine ⟨key b, ?_, ?_⟩
  · rw [key]
    show ((fooBarConfig.length : Nat) : Int) = 13
    have h : fooBarConfig.length = 13 := by decide
    rw [h]; rfl
  · rw [key]

theorem generateMetadata_walk_done (env : Env) (ref : Reference) (rawJSON : List Byte)
    (diffIDs : List String) (top : LayerNode) (parents : PushLayer)
    (discovered : List Descriptor)
    (h : env.resolves ref rawJSON diffIDs (top :: parents))
    (hw : walkLayers env.lib diffIDs (top :: parents) [] = .done discovered) :
    generateMetadata env (some ref)
      = match env.fromStruct (assembleManifest (getCanonicalLayer discovered)
          (getConfigDescriptor env.lib MediaTypeImageConfig rawJSON).1) with
        | .error err => .ret [] (some err)
        | .ok manifest => .ret manifest.Payload.2.1 none := by
  obtain ⟨h1, imageID, h2, h3, h4, h5⟩ := h
  have hc : (getConfigDescriptor env.lib MediaTypeImageConfig rawJSON).2 = none := by
    have hplain : ∀ r ∈ bytesNewReader rawJSON, r.err = none := by
      intro r hr
      simp only [bytesNewReader, List.mem_map] at hr
      obtain ⟨_, _, rfl⟩ := hr
      rfl
    simp only [getConfigDescriptor, ioReadAll_plain _ [] hplain]
  simp only [generateMetadata, h1, h2, h3, h4, h5, hw, hc]

/-- Claim C9. Whenever serialising the assembled manifest fails, at either step
(`schema2.FromStruct` returns an error, or `Payload` returns one after a successful
`schema2.FromStruct`), `generateMetadata` returns that error with an empty payload, and
`GenerateMetadata` returns it without calling `os.WriteFile`. The method `Payload` that the
code calls never returns an error, so in fact only `schema2.FromStruct` can fail. -/
theorem C9_serialisation_failure_is_returned (env : Env) (imgGUN filePath : String)
    (ref : Reference) (rawJSON : List Byte) (diffIDs : List String) (top : LayerNode)
    (parents : PushLayer) (discovered : List Descriptor) (err : GoError)
    (hgun : (parseGUN imgGUN).2.2 = none)
    (href : RepoTagReference env (parseGUN imgGUN).1 (parseGUN imgGUN).2.1 = .ok (some ref))
    (hres : env.resolves ref rawJSON diffIDs (top :: parents))
    (hwalk : walkLayers env.lib diffIDs (top :: parents) [] = .done discovered)
    (hfail :
      env.fromStruct (assembleManifest (getCanonicalLayer discovered)
          (getConfigDescriptor env.lib MediaTypeImageConfig rawJSON).1) = .error err ∨
      ∃ manifest,
        env.fromStruct (assembleManifest (getCanonicalLayer discovered)
          (getConfigDescriptor env.lib MediaTypeImageConfig rawJSON).1) = .ok manifest ∧
        manifest.Payload.2.2 = some err) :
    (∀ m : DeserializedManifest, m.Payload.2.2 = none) ∧
    generateMetadata env (some ref) = .ret [] (some err) ∧
    GenerateMetadata env imgGUN filePath = .ret (some err) none := by
  have hpayload : ∀ m : DeserializedManifest, m.Payload.2.2 = none := fun _ => rfl
  have hfrom : env.fromStruct (assembleManifest (getCanonicalLayer discovered)
      (getConfigDescriptor env.lib MediaTypeImageConfig rawJSON).1) = .error err := by
    rcases hfail with h | ⟨manifest, _, h⟩
    · exact h
    · rw [hpayload manifest] at h
      cases h
  have hg : generateMetadata env (some ref) = .ret [] (some err) := by
    rw [generateMetadata_walk_done env ref rawJSON diffIDs top parents discovered hres hwalk,
      hfrom]
  refine ⟨hpayload, hg, ?_⟩
  simp only [GenerateMetadata, hgun, href, hg]

/-- Witness for C9: a one-layer image whose `schema2.FromStruct` fails; the error is returned
and nothing is written. -/
theorem C9_serialisation_failure_is_returned_witness :
    generateMetadata failingFromStructEnv (some ⟨"repo", "tag"⟩)
      = .ret [] (some (.other "fromstruct: cannot serialise")) ∧
    GenerateMetadata failingFromStructEnv "repo:tag" "/home/dct/output.dat"
      = .ret (some (.other "fromstruct: cannot serialise")) none :=
  (C9_serialisation_failure_is_returned failingFromStructEnv "repo:tag" "/home/dct/output.dat"
    ⟨"repo", "tag"⟩ [1, 2] ["sha256:aa"] layerA [] [(getDescriptor sampleLibs layerA "sha256:aa").1]
    (.other "fromstruct: cannot serialise")
    (by decide) rfl ⟨rfl, "sha256:image", rfl, rfl, rfl, rfl⟩ (by decide)
    (Or.inl rfl)).2

end ManifestGen
